import Mathlib

/-!
Shallow embedding of the library-reconciliation engine of
`rekordbox-plexamp-sync` (`src/app.py`), together with theorems about its
indexing, matching and diff/apply behaviour.

The Plex side (tracks, media parts, playlists) is modelled by plain
structures; Python dictionaries are modelled as functions `String → Option α`
where insertion overwrites (last writer wins, exactly the semantics of
`dict.__setitem__` / `dict.get`).  Python `None` is `Option.none`; string
truthiness (`if s:`) is "present and non-empty".  The network mutations the
engine issues (`createPlaylist`, `removeItems`, `addItems`) are recorded in a
trace of `PlexAction`s instead of being performed, and the one `try/except`
block of the engine (around `removeItems`) is modelled by a parameter saying,
per playlist title, whether the removal call raises.
-/

namespace RekordboxSync

/-- Model of `os.path.basename` for POSIX paths: the part after the last `/`. -/
def basename (path : String) : String :=
  (path.splitOn "/").getLastD path

/-- A media part of a Plex track (`part.file` is its filesystem path). -/
structure PlexPart where
  file : String
deriving DecidableEq, Repr

/-- A media item of a Plex track, holding its parts. -/
structure PlexMedia where
  parts : List PlexPart
deriving DecidableEq, Repr

/-- A Plex track: stable id `ratingKey`, display `title` (the empty string
models a falsy/absent title) and its media items.  An empty `media` list
models a falsy `track.media`. -/
structure PlexTrack where
  ratingKey : Nat
  title : String
  media : List PlexMedia
deriving DecidableEq, Repr

/-- Python dict insertion: overwrite the binding of `k`. -/
def dictInsert {α : Type} (k : String) (v : α) (m : String → Option α) :
    String → Option α :=
  fun q => if q = k then some v else m q

/-- The `track_map` built by `build_plex_track_map`: the dictionaries
`by_filename` and `by_title`. -/
structure TrackMap where
  by_filename : String → Option PlexTrack
  by_title : String → Option PlexTrack

/-- The empty track map (`{'by_filename': {}, 'by_title': {}}`). -/
def TrackMap.empty : TrackMap :=
  ⟨fun _ => none, fun _ => none⟩

/-- Model of `_index_plex_track` (src/app.py lines 118–129): insert the track under the
base name of every part of every media item, then under its lowercased title
when the title is truthy. -/
def indexPlexTrack (track : PlexTrack) (track_map : TrackMap) : TrackMap :=
  let m :=
    if track.media.isEmpty then track_map
    else
      track.media.foldl
        (fun acc md =>
          md.parts.foldl
            (fun acc2 part =>
              { acc2 with
                by_filename := dictInsert (basename part.file) track acc2.by_filename })
            acc)
        track_map
  if track.title = "" then m
  else { m with by_title := dictInsert track.title.toLower track m.by_title }

/-- A Plex library section: its `type` and the tracks `searchTracks` returns. -/
structure PlexSection where
  type : String
  tracks : List PlexTrack
deriving DecidableEq, Repr

/-- Model of `build_plex_track_map` (src/app.py lines 132–151): fold `_index_plex_track`
over every track of every section whose type is `'artist'`. -/
def build_plex_track_map (sections : List PlexSection) : TrackMap :=
  sections.foldl
    (fun m s =>
      if s.type = "artist" then s.tracks.foldl (fun acc t => indexPlexTrack t acc) m
      else m)
    TrackMap.empty

/-- All base names under which `_index_plex_track` files a track. -/
def partBasenames (t : PlexTrack) : List String :=
  (t.media.map (fun md => md.parts.map (fun part => basename part.file))).flatten

/-- The `by_title` key a track is filed under, when its title is truthy. -/
def titleKey (t : PlexTrack) : Option String :=
  if t.title = "" then none else some t.title.toLower

/-- The tracks of the music (`'artist'`) sections, in catalog iteration order. -/
def musicTracks (sections : List PlexSection) : List PlexTrack :=
  ((sections.filter (fun s => s.type = "artist")).map (fun s => s.tracks)).flatten

/-- A Plex playlist: `title`, `smart` flag and current `items()`. -/
structure PlexPlaylist where
  title : String
  smart : Bool
  items : List PlexTrack
deriving DecidableEq, Repr

/-- One value of the `playlist_map` dict:
`{'playlist': playlist, 'track_ids': track_ids}`. -/
structure PlaylistEntry where
  playlist : PlexPlaylist
  track_ids : List Nat
deriving DecidableEq, Repr

/-- Model of `_index_plex_playlist` (src/app.py lines 154–160): skip smart playlists,
otherwise store the playlist with its current track ids under its title. -/
def indexPlexPlaylist (pl : PlexPlaylist)
    (playlist_map : String → Option PlaylistEntry) : String → Option PlaylistEntry :=
  if pl.smart then playlist_map
  else dictInsert pl.title ⟨pl, pl.items.map (fun t => t.ratingKey)⟩ playlist_map

/-- Model of `build_plex_playlist_map` (src/app.py lines 163–176). -/
def build_plex_playlist_map (playlists : List PlexPlaylist) :
    String → Option PlaylistEntry :=
  playlists.foldl (fun m pl => indexPlexPlaylist pl m) (fun _ => none)

/-- The fields of a `DjMdContent` record the engine reads (src/app.py lines
251–253); each may be `None`. -/
structure DjMdContent where
  file_name_l : Option String
  folder_path : Option String
  title : Option String
deriving DecidableEq, Repr

/-- The fields of a `DjMdPlaylist` record the engine reads. -/
structure DjMdPlaylist where
  name : Option String
  smart_list : Option String
deriving DecidableEq, Repr

/-- A source `PlaylistObj`; `dj_md_contents = none` models the key being
absent from the dict (`'dj_md_contents' not in p`). -/
structure PlaylistObj where
  combined_name : String
  dj_md_playlist : DjMdPlaylist
  dj_md_contents : Option (List DjMdContent)
deriving DecidableEq, Repr

/-- Python truthiness of an optional string: present and non-empty. -/
def strTruthy : Option String → Bool
  | none => false
  | some s => !s.isEmpty

/-- The smart-source guard (src/app.py line 232):
`smart_list_data and smart_list_data != ''`. -/
def smartListCond (sl : Option String) : Bool :=
  strTruthy sl && !(sl == some "")

/-- The empty-playlist guard (src/app.py line 239):
`'dj_md_contents' not in p or len(p['dj_md_contents']) == 0`. -/
def hasNoContents (p : PlaylistObj) : Bool :=
  match p.dj_md_contents with
  | none => true
  | some l => l.isEmpty

/-- Rendering `str(x)` of an optional string, as an f-string does. -/
def optStr : Option String → String
  | some s => s
  | none => "None"

/-- The per-track lookup of the match phase (src/app.py lines 255–258):
filename first, lowercased title as fallback when the title is truthy. -/
def matchTrack (tm : TrackMap) (c : DjMdContent) : Option PlexTrack :=
  let track :=
    match c.file_name_l with
    | some fn => tm.by_filename fn
    | none => none
  match track with
  | some t => some t
  | none =>
    match c.title with
    | some ttl => if ttl = "" then none else tm.by_title ttl.toLower
    | none => none

/-- One record of the `not_found_tracks` list (src/app.py lines 264–271). -/
structure NotFoundTrack where
  playlist : String
  file_name : Option String
  full_path : Option String
  title : Option String
deriving DecidableEq, Repr

/-- Model of `f'{folder_path}/{file_name}' if folder_path else file_name`
(src/app.py line 263). -/
def fullPathOf (c : DjMdContent) : Option String :=
  if strTruthy c.folder_path then
    some (optStr c.folder_path ++ "/" ++ optStr c.file_name_l)
  else c.file_name_l

/-- The not-found record appended for an unmatched source track. -/
def mkNotFound (combined_title : String) (c : DjMdContent) : NotFoundTrack :=
  ⟨combined_title, c.file_name_l, fullPathOf c, c.title⟩

/-- The match loop over a playlist's contents (src/app.py lines 250–271):
matched tracks in source order, and the not-found records appended, in order. -/
def matchContents (tm : TrackMap) (combined_title : String)
    (contents : List DjMdContent) : List PlexTrack × List NotFoundTrack :=
  contents.foldl
    (fun acc c =>
      match matchTrack tm c with
      | some t => (acc.1 ++ [t], acc.2)
      | none => (acc.1, acc.2 ++ [mkNotFound combined_title c]))
    ([], [])

/-- A mutation the engine issues against the Plex server. -/
inductive PlexAction where
  | createPlaylist (title : String) (items : List PlexTrack)
  | removeItems (playlist : PlexPlaylist) (items : List PlexTrack)
  | addItems (playlist : PlexPlaylist) (items : List PlexTrack)
deriving DecidableEq, Repr

/-- The existing playlist an action mutates (`none` for a create). -/
def actionTarget : PlexAction → Option PlexPlaylist
  | .createPlaylist _ _ => none
  | .removeItems pl _ => some pl
  | .addItems pl _ => some pl

/-- One record of `created_playlists`. -/
structure CreatedRecord where
  name : String
  tracks : Nat
deriving DecidableEq, Repr

/-- One record of `updated_playlists` (src/app.py lines 321–328); `added` is
`len(tracks) - len(existing_track_ids)`, which may be negative. -/
structure UpdatedRecord where
  name : String
  old_tracks : Nat
  new_tracks : Nat
  added : Int
deriving DecidableEq, Repr

/-- One record of `skipped_playlists`; the `tracks` key is only present for
"Up to date" skips. -/
structure SkippedRecord where
  name : String
  tracks : Option Nat
  reason : String
deriving DecidableEq, Repr

/-- The accumulating state of `main`'s sync loop (src/app.py lines 221–225),
plus the trace of mutations issued. -/
structure SyncState where
  created_playlists : List CreatedRecord
  updated_playlists : List UpdatedRecord
  skipped_playlists : List SkippedRecord
  smart_playlists_skipped : List String
  not_found_tracks : List NotFoundTrack
  actions : List PlexAction
deriving DecidableEq, Repr

/-- The state before the first loop iteration: all lists empty. -/
def initialSyncState : SyncState := ⟨[], [], [], [], [], []⟩

/-- One iteration of the sync loop of `main` (src/app.py lines 227–334) on
source playlist `p`.  `removeFails ct = true` models the `removeItems` call
for playlist title `ct` raising (the exception is caught at line 317 and the
removal is not applied). -/
def processPlaylist (tm : TrackMap) (playlist_map : String → Option PlaylistEntry)
    (removeFails : String → Bool) (st : SyncState) (p : PlaylistObj) : SyncState :=
  if smartListCond p.dj_md_playlist.smart_list then
    { st with
      smart_playlists_skipped :=
        st.smart_playlists_skipped ++ [optStr p.dj_md_playlist.name] }
  else if hasNoContents p then
    { st with
      skipped_playlists :=
        st.skipped_playlists ++ [⟨p.combined_name, none, "No tracks"⟩] }
  else
    let combined_title := p.combined_name
    let mr := matchContents tm combined_title (p.dj_md_contents.getD [])
    let tracks := mr.1
    let st1 := { st with not_found_tracks := st.not_found_tracks ++ mr.2 }
    let rekordbox_track_ids := tracks.map (fun t => t.ratingKey)
    match playlist_map combined_title with
    | some entry =>
      if entry.playlist.smart then
        { st1 with
          smart_playlists_skipped := st1.smart_playlists_skipped ++ [combined_title] }
      else if rekordbox_track_ids = entry.track_ids then
        { st1 with
          skipped_playlists :=
            st1.skipped_playlists ++
              [⟨combined_title, some tracks.length, "Up to date"⟩] }
      else
        let st2 :=
          if removeFails combined_title then st1
          else if entry.playlist.items.isEmpty then st1
          else
            { st1 with
              actions := st1.actions ++ [.removeItems entry.playlist entry.playlist.items] }
        { st2 with
          actions := st2.actions ++ [.addItems entry.playlist tracks]
          updated_playlists :=
            st2.updated_playlists ++
              [⟨combined_title, entry.track_ids.length, tracks.length,
                (tracks.length : Int) - (entry.track_ids.length : Int)⟩] }
    | none =>
      { st1 with
        actions := st1.actions ++ [.createPlaylist combined_title tracks]
        created_playlists :=
          st1.created_playlists ++ [⟨combined_title, tracks.length⟩] }

/-- The whole sync loop of `main` over the source playlists, given the two
prebuilt maps. -/
def runSync (tm : TrackMap) (playlist_map : String → Option PlaylistEntry)
    (removeFails : String → Bool) (pl : List PlaylistObj) : SyncState :=
  pl.foldl (processPlaylist tm playlist_map removeFails) initialSyncState

/-! ### Helper lemmas shared by the theorems below -/

lemma matchContents_aux (tm : TrackMap) (combined_title : String)
    (contents : List DjMdContent) (acc : List PlexTrack × List NotFoundTrack) :
    contents.foldl
      (fun acc c =>
        match matchTrack tm c with
        | some t => (acc.1 ++ [t], acc.2)
        | none => (acc.1, acc.2 ++ [mkNotFound combined_title c]))
      acc =
    (acc.1 ++ contents.filterMap (matchTrack tm),
     acc.2 ++
       (contents.filter (fun c => (matchTrack tm c).isNone)).map
         (mkNotFound combined_title)) := by
  induction contents generalizing acc with
  | nil => simp
  | cons c cs ih =>
    cases h : matchTrack tm c with
    | some t =>
      simp [List.foldl_cons, h, ih, List.filterMap_cons, List.filter_cons]
    | none =>
      simp [List.foldl_cons, h, ih, List.filterMap_cons, List.filter_cons]

/-- Closed form of the match loop: matched tracks are the `filterMap` of the
matcher over the contents, and one not-found record is appended per
unmatched content, in order. -/
lemma matchContents_eq (tm : TrackMap) (combined_title : String)
    (contents : List DjMdContent) :
    matchContents tm combined_title contents =
    (contents.filterMap (matchTrack tm),
     (contents.filter (fun c => (matchTrack tm c).isNone)).map
       (mkNotFound combined_title)) := by
  simpa [matchContents] using
    matchContents_aux tm combined_title contents ([], [])

/-- The smart-source branch (src/app.py lines 231–235). -/
lemma processPlaylist_smart_skip (tm : TrackMap)
    (playlist_map : String → Option PlaylistEntry) (removeFails : String → Bool)
    (st : SyncState) (p : PlaylistObj)
    (h : smartListCond p.dj_md_playlist.smart_list = true) :
    processPlaylist tm playlist_map removeFails st p =
      { st with
        smart_playlists_skipped :=
          st.smart_playlists_skipped ++ [optStr p.dj_md_playlist.name] } := by
  simp [processPlaylist, h]

/-- The empty-playlist branch (src/app.py lines 239–243). -/
lemma processPlaylist_no_tracks (tm : TrackMap)
    (playlist_map : String → Option PlaylistEntry) (removeFails : String → Bool)
    (st : SyncState) (p : PlaylistObj)
    (hs : smartListCond p.dj_md_playlist.smart_list = false)
    (h : hasNoContents p = true) :
    processPlaylist tm playlist_map removeFails st p =
      { st with
        skipped_playlists :=
          st.skipped_playlists ++ [⟨p.combined_name, none, "No tracks"⟩] } := by
  simp [processPlaylist, hs, h]

/-- The up-to-date branch (src/app.py lines 296–306): the playlist is present,
not smart on the target, and the matched id sequence equals the stored one. -/
lemma processPlaylist_up_to_date (tm : TrackMap)
    (playlist_map : String → Option PlaylistEntry) (removeFails : String → Bool)
    (st : SyncState) (p : PlaylistObj) (entry : PlaylistEntry)
    (hs : smartListCond p.dj_md_playlist.smart_list = false)
    (hc : hasNoContents p = false)
    (hpm : playlist_map p.combined_name = some entry)
    (hsm : entry.playlist.smart = false)
    (heq : ((matchContents tm p.combined_name (p.dj_md_contents.getD [])).1).map
        (fun t => t.ratingKey) = entry.track_ids) :
    processPlaylist tm playlist_map removeFails st p =
      { st with
        not_found_tracks :=
          st.not_found_tracks ++
            (matchContents tm p.combined_name (p.dj_md_contents.getD [])).2
        skipped_playlists :=
          st.skipped_playlists ++
            [⟨p.combined_name,
              some (matchContents tm p.combined_name (p.dj_md_contents.getD [])).1.length,
              "Up to date"⟩] } := by
  simp [processPlaylist, hs, hc, hpm, hsm, heq]

/-- The update branch (src/app.py lines 307–329) when the removal call
succeeds. -/
lemma processPlaylist_update_ok (tm : TrackMap)
    (playlist_map : String → Option PlaylistEntry) (removeFails : String → Bool)
    (st : SyncState) (p : PlaylistObj) (entry : PlaylistEntry)
    (hs : smartListCond p.dj_md_playlist.smart_list = false)
    (hc : hasNoContents p = false)
    (hpm : playlist_map p.combined_name = some entry)
    (hsm : entry.playlist.smart = false)
    (hne : ((matchContents tm p.combined_name (p.dj_md_contents.getD [])).1).map
        (fun t => t.ratingKey) ≠ entry.track_ids)
    (hrf : removeFails p.combined_name = false)
    (hitems : entry.playlist.items ≠ []) :
    processPlaylist tm playlist_map removeFails st p =
      { st with
        not_found_tracks :=
          st.not_found_tracks ++
            (matchContents tm p.combined_name (p.dj_md_contents.getD [])).2
        actions :=
          st.actions ++
            [.removeItems entry.playlist entry.playlist.items,
             .addItems entry.playlist
               (matchContents tm p.combined_name (p.dj_md_contents.getD [])).1]
        updated_playlists :=
          st.updated_playlists ++
            [⟨p.combined_name, entry.track_ids.length,
              (matchContents tm p.combined_name (p.dj_md_contents.getD [])).1.length,
              ((matchContents tm p.combined_name (p.dj_md_contents.getD [])).1.length : Int) -
                (entry.track_ids.length : Int)⟩] } := by
  simp [processPlaylist, hs, hc, hpm, hsm, hne, hrf, hitems]

/-- The update branch when the removal call raises: the exception is caught,
no removal is applied, and the add still runs. -/
lemma processPlaylist_update_removeFails (tm : TrackMap)
    (playlist_map : String → Option PlaylistEntry) (removeFails : String → Bool)
    (st : SyncState) (p : PlaylistObj) (entry : PlaylistEntry)
    (hs : smartListCond p.dj_md_playlist.smart_list = false)
    (hc : hasNoContents p = false)
    (hpm : playlist_map p.combined_name = some entry)
    (hsm : entry.playlist.smart = false)
    (hne : ((matchContents tm p.combined_name (p.dj_md_contents.getD [])).1).map
        (fun t => t.ratingKey) ≠ entry.track_ids)
    (hrf : removeFails p.combined_name = true) :
    processPlaylist tm playlist_map removeFails st p =
      { st with
        not_found_tracks :=
          st.not_found_tracks ++
            (matchContents tm p.combined_name (p.dj_md_contents.getD [])).2
        actions :=
          st.actions ++
            [.addItems entry.playlist
               (matchContents tm p.combined_name (p.dj_md_contents.getD [])).1]
        updated_playlists :=
          st.updated_playlists ++
            [⟨p.combined_name, entry.track_ids.length,
              (matchContents tm p.combined_name (p.dj_md_contents.getD [])).1.length,
              ((matchContents tm p.combined_name (p.dj_md_contents.getD [])).1.length : Int) -
                (entry.track_ids.length : Int)⟩] } := by
  simp [processPlaylist, hs, hc, hpm, hsm, hne, hrf]

/-- The update branch when there is nothing to remove (`items_to_remove` is
empty, so `removeItems` is not called). -/
lemma processPlaylist_update_empty_items (tm : TrackMap)
    (playlist_map : String → Option PlaylistEntry) (removeFails : String → Bool)
    (st : SyncState) (p : PlaylistObj) (entry : PlaylistEntry)
    (hs : smartListCond p.dj_md_playlist.smart_list = false)
    (hc : hasNoContents p = false)
    (hpm : playlist_map p.combined_name = some entry)
    (hsm : entry.playlist.smart = false)
    (hne : ((matchContents tm p.combined_name (p.dj_md_contents.getD [])).1).map
        (fun t => t.ratingKey) ≠ entry.track_ids)
    (hitems : entry.playlist.items = []) :
    processPlaylist tm playlist_map removeFails st p =
      { st with
        not_found_tracks :=
          st.not_found_tracks ++
            (matchContents tm p.combined_name (p.dj_md_contents.getD [])).2
        actions :=
          st.actions ++
            [.addItems entry.playlist
               (matchContents tm p.combined_name (p.dj_md_contents.getD [])).1]
        updated_playlists :=
          st.updated_playlists ++
            [⟨p.combined_name, entry.track_ids.length,
              (matchContents tm p.combined_name (p.dj_md_contents.getD [])).1.length,
              ((matchContents tm p.combined_name (p.dj_md_contents.getD [])).1.length : Int) -
                (entry.track_ids.length : Int)⟩] } := by
  by_cases hrf : removeFails p.combined_name
  · simp [processPlaylist, hs, hc, hpm, hsm, hne, hrf]
  · simp [processPlaylist, hs, hc, hpm, hsm, hne, hrf, hitems]

/-- The smart-target branch (src/app.py lines 291–294). -/
lemma processPlaylist_smart_target (tm : TrackMap)
    (playlist_map : String → Option PlaylistEntry) (removeFails : String → Bool)
    (st : SyncState) (p : PlaylistObj) (entry : PlaylistEntry)
    (hs : smartListCond p.dj_md_playlist.smart_list = false)
    (hc : hasNoContents p = false)
    (hpm : playlist_map p.combined_name = some entry)
    (hsm : entry.playlist.smart = true) :
    processPlaylist tm playlist_map removeFails st p =
      { st with
        not_found_tracks :=
          st.not_found_tracks ++
            (matchContents tm p.combined_name (p.dj_md_contents.getD [])).2
        smart_playlists_skipped :=
          st.smart_playlists_skipped ++ [p.combined_name] } := by
  simp [processPlaylist, hs, hc, hpm, hsm]

/-- The create branch (src/app.py lines 330–334). -/
lemma processPlaylist_create (tm : TrackMap)
    (playlist_map : String → Option PlaylistEntry) (removeFails : String → Bool)
    (st : SyncState) (p : PlaylistObj)
    (hs : smartListCond p.dj_md_playlist.smart_list = false)
    (hc : hasNoContents p = false)
    (hpm : playlist_map p.combined_name = none) :
    processPlaylist tm playlist_map removeFails st p =
      { st with
        not_found_tracks :=
          st.not_found_tracks ++
            (matchContents tm p.combined_name (p.dj_md_contents.getD [])).2
        actions :=
          st.actions ++
            [.createPlaylist p.combined_name
               (matchContents tm p.combined_name (p.dj_md_contents.getD [])).1]
        created_playlists :=
          st.created_playlists ++
            [⟨p.combined_name,
              (matchContents tm p.combined_name (p.dj_md_contents.getD [])).1.length⟩] } := by
  simp [processPlaylist, hs, hc, hpm]

/-- Whenever the match phase runs (source not smart, contents non-empty), the
not-found list is extended by exactly the not-found records of the match loop,
in every diff branch. -/
lemma processPlaylist_not_found_eq (tm : TrackMap)
    (playlist_map : String → Option PlaylistEntry) (removeFails : String → Bool)
    (st : SyncState) (p : PlaylistObj)
    (hs : smartListCond p.dj_md_playlist.smart_list = false)
    (hc : hasNoContents p = false) :
    (processPlaylist tm playlist_map removeFails st p).not_found_tracks =
      st.not_found_tracks ++
        (matchContents tm p.combined_name (p.dj_md_contents.getD [])).2 := by
  cases hpm : playlist_map p.combined_name with
  | none =>
    rw [processPlaylist_create tm playlist_map removeFails st p hs hc hpm]
  | some entry =>
    by_cases hsm : entry.playlist.smart
    · rw [processPlaylist_smart_target tm playlist_map removeFails st p entry hs hc hpm hsm]
    · replace hsm : entry.playlist.smart = false := by simpa using hsm
      by_cases heq : ((matchContents tm p.combined_name (p.dj_md_contents.getD [])).1).map
          (fun t => t.ratingKey) = entry.track_ids
      · rw [processPlaylist_up_to_date tm playlist_map removeFails st p entry hs hc hpm hsm heq]
      · by_cases hrf : removeFails p.combined_name
        · rw [processPlaylist_update_removeFails tm playlist_map removeFails st p entry
            hs hc hpm hsm heq hrf]
        · replace hrf : removeFails p.combined_name = false := by simpa using hrf
          by_cases hitems : entry.playlist.items = []
          · rw [processPlaylist_update_empty_items tm playlist_map removeFails st p entry
              hs hc hpm hsm heq hitems]
          · rw [processPlaylist_update_ok tm playlist_map removeFails st p entry
              hs hc hpm hsm heq hrf hitems]

/-! ### Claim theorems -/

/-- C3: when the source track's `file_name_l` has a hit in `by_filename`, the
matcher returns that very track, whatever `by_title` holds — the title
fallback is never consulted. -/
theorem C3_filename_match_has_priority (tm : TrackMap) (c : DjMdContent)
    (fn : String) (t : PlexTrack)
    (hf : c.file_name_l = some fn) (ht : tm.by_filename fn = some t) :
    matchTrack tm c = some t := by
  simp [matchTrack, hf, ht]

/-- Witness for C3: the filename maps to track 1 while the lowercased title
maps to track 2; the match resolves to track 1. -/
theorem C3_filename_match_has_priority_witness :
    matchTrack
      ⟨fun k => if k = "a.mp3" then some ⟨1, "x", []⟩ else none,
       fun _ => some ⟨2, "y", []⟩⟩
      ⟨some "a.mp3", none, some "Y"⟩ = some ⟨1, "x", []⟩ :=
  C3_filename_match_has_priority _ _ "a.mp3" _ rfl (by simp)

/-- C7: a source playlist with a non-empty smart-list descriptor is recorded
as smart-skipped and nothing else changes — in particular no create,
removeItems or addItems action is issued, whatever its contents. -/
theorem C7_smart_source_recorded_and_unmutated (tm : TrackMap)
    (playlist_map : String → Option PlaylistEntry) (removeFails : String → Bool)
    (st : SyncState) (p : PlaylistObj) (s : String)
    (hsl : p.dj_md_playlist.smart_list = some s) (hne : s ≠ "") :
    processPlaylist tm playlist_map removeFails st p =
      { st with
        smart_playlists_skipped :=
          st.smart_playlists_skipped ++ [optStr p.dj_md_playlist.name] } := by
  apply processPlaylist_smart_skip
  have hie : s.isEmpty = false := by
    cases h : s.isEmpty
    · rfl
    · exact absurd ((String.isEmpty_iff s).mp h) hne
  simp [smartListCond, strTruthy, hsl, hne, hie]

/-- Witness for C7: a smart source playlist with tracks is only recorded as
smart-skipped. -/
theorem C7_smart_source_recorded_and_unmutated_witness :
    processPlaylist TrackMap.empty (fun _ => none) (fun _ => false)
      initialSyncState
      ⟨"Grp / A", ⟨some "A", some "<smartcond>"⟩, some [⟨some "f.mp3", none, none⟩]⟩ =
      { initialSyncState with smart_playlists_skipped := ["A"] } := by
  simpa [initialSyncState, optStr] using
    C7_smart_source_recorded_and_unmutated TrackMap.empty (fun _ => none)
      (fun _ => false) initialSyncState
      ⟨"Grp / A", ⟨some "A", some "<smartcond>"⟩, some [⟨some "f.mp3", none, none⟩]⟩
      "<smartcond>" rfl (by decide)

/-- C8: a non-smart source playlist with no contents (key absent or empty
list) is recorded as skipped with reason `"No tracks"` and nothing else
changes — no mutation is issued and no matching is performed. -/
theorem C8_empty_source_skipped_no_tracks (tm : TrackMap)
    (playlist_map : String → Option PlaylistEntry) (removeFails : String → Bool)
    (st : SyncState) (p : PlaylistObj)
    (hs : smartListCond p.dj_md_playlist.smart_list = false)
    (hc : hasNoContents p = true) :
    processPlaylist tm playlist_map removeFails st p =
      { st with
        skipped_playlists :=
          st.skipped_playlists ++ [⟨p.combined_name, none, "No tracks"⟩] } :=
  processPlaylist_no_tracks tm playlist_map removeFails st p hs hc

/-- Witness for C8: a source playlist whose contents list is empty is recorded
as skipped with reason `"No tracks"`. -/
theorem C8_empty_source_skipped_no_tracks_witness :
    processPlaylist TrackMap.empty (fun _ => none) (fun _ => false)
      initialSyncState ⟨"Grp / B", ⟨some "B", none⟩, some []⟩ =
      { initialSyncState with
        skipped_playlists := [⟨"Grp / B", none, "No tracks"⟩] } := by
  simpa [initialSyncState] using
    C8_empty_source_skipped_no_tracks TrackMap.empty (fun _ => none)
      (fun _ => false) initialSyncState ⟨"Grp / B", ⟨some "B", none⟩, some []⟩
      (by decide) (by decide)

/-- C5: for a non-smart source playlist with contents, the not-found list
gains exactly one record per content without a filename or title hit —
carrying the playlist's combined name, the track's file name, full path and
title — and matched contents contribute nothing. -/
theorem C5_unmatched_recorded_exactly_once (tm : TrackMap)
    (playlist_map : String → Option PlaylistEntry) (removeFails : String → Bool)
    (st : SyncState) (p : PlaylistObj) (l : List DjMdContent)
    (hs : smartListCond p.dj_md_playlist.smart_list = false)
    (hc : p.dj_md_contents = some l) (hne : l ≠ []) :
    (processPlaylist tm playlist_map removeFails st p).not_found_tracks =
      st.not_found_tracks ++
        (l.filter (fun c => (matchTrack tm c).isNone)).map
          (mkNotFound p.combined_name) := by
  have hnc : hasNoContents p = false := by
    simp only [hasNoContents, hc]
    cases l with
    | nil => exact absurd rfl hne
    | cons a as => rfl
  rw [processPlaylist_not_found_eq tm playlist_map removeFails st p hs hnc, hc]
  simp [matchContents_eq]

/-- Witness for C5: of two contents, the first matches by filename and the
second matches nothing; exactly one not-found record is appended, carrying
the playlist name, file name, full path and title. -/
theorem C5_unmatched_recorded_exactly_once_witness :
    (processPlaylist
      ⟨fun k => if k = "a.mp3" then some ⟨1, "x", []⟩ else none, fun _ => none⟩
      (fun _ => none) (fun _ => false) initialSyncState
      ⟨"Grp / C", ⟨some "C", none⟩,
        some [⟨some "a.mp3", none, none⟩,
              ⟨some "missing.mp3", some "/music", some "Unknown"⟩]⟩).not_found_tracks =
      [⟨"Grp / C", some "missing.mp3", some "/music/missing.mp3", some "Unknown"⟩] := by
  simpa using
    C5_unmatched_recorded_exactly_once
      ⟨fun k => if k = "a.mp3" then some ⟨1, "x", []⟩ else none, fun _ => none⟩
      (fun _ => none) (fun _ => false) initialSyncState
      ⟨"Grp / C", ⟨some "C", none⟩,
        some [⟨some "a.mp3", none, none⟩,
              ⟨some "missing.mp3", some "/music", some "Unknown"⟩]⟩
      [⟨some "a.mp3", none, none⟩,
       ⟨some "missing.mp3", some "/music", some "Unknown"⟩]
      (by decide) rfl (by decide)

/-- C6: when the removal call of an update raises, the exception is caught
and the update is not aborted: the addItems call with the full matched
sequence is still issued, and the playlist is recorded as updated with the
old count, the new count and the net delta. -/
theorem C6_remove_failure_does_not_abort_update (tm : TrackMap)
    (playlist_map : String → Option PlaylistEntry) (removeFails : String → Bool)
    (st : SyncState) (p : PlaylistObj) (entry : PlaylistEntry)
    (hs : smartListCond p.dj_md_playlist.smart_list = false)
    (hc : hasNoContents p = false)
    (hpm : playlist_map p.combined_name = some entry)
    (hsm : entry.playlist.smart = false)
    (hne : ((matchContents tm p.combined_name (p.dj_md_contents.getD [])).1).map
        (fun t => t.ratingKey) ≠ entry.track_ids)
    (hrf : removeFails p.combined_name = true) :
    (processPlaylist tm playlist_map removeFails st p).actions =
      st.actions ++
        [.addItems entry.playlist
          (matchContents tm p.combined_name (p.dj_md_contents.getD [])).1] ∧
    (processPlaylist tm playlist_map removeFails st p).updated_playlists =
      st.updated_playlists ++
        [⟨p.combined_name, entry.track_ids.length,
          (matchContents tm p.combined_name (p.dj_md_contents.getD [])).1.length,
          ((matchContents tm p.combined_name (p.dj_md_contents.getD [])).1.length : Int) -
            (entry.track_ids.length : Int)⟩] := by
  rw [processPlaylist_update_removeFails tm playlist_map removeFails st p entry
    hs hc hpm hsm hne hrf]
  exact ⟨rfl, rfl⟩

/-- Witness for C6: the target holds one track, nothing matches, the removal
raises; the addItems call is still issued and the playlist is recorded as
updated from 1 to 0 tracks with delta −1. -/
theorem C6_remove_failure_does_not_abort_update_witness :
    (processPlaylist TrackMap.empty
      (fun k => if k = "X" then
          some ⟨⟨"X", false, [⟨5, "t", []⟩]⟩, [5]⟩ else none)
      (fun _ => true) initialSyncState
      ⟨"X", ⟨some "X", none⟩, some [⟨some "gone.mp3", none, none⟩]⟩).actions =
      [.addItems ⟨"X", false, [⟨5, "t", []⟩]⟩ []] ∧
    (processPlaylist TrackMap.empty
      (fun k => if k = "X" then
          some ⟨⟨"X", false, [⟨5, "t", []⟩]⟩, [5]⟩ else none)
      (fun _ => true) initialSyncState
      ⟨"X", ⟨some "X", none⟩, some [⟨some "gone.mp3", none, none⟩]⟩).updated_playlists =
      [⟨"X", 1, 0, -1⟩] := by
  have h :=
    C6_remove_failure_does_not_abort_update TrackMap.empty
      (fun k => if k = "X" then
          some ⟨⟨"X", false, [⟨5, "t", []⟩]⟩, [5]⟩ else none)
      (fun _ => true) initialSyncState
      ⟨"X", ⟨some "X", none⟩, some [⟨some "gone.mp3", none, none⟩]⟩
      ⟨⟨"X", false, [⟨5, "t", []⟩]⟩, [5]⟩
      (by decide) (by decide) (by simp) rfl (by decide) rfl
  simpa [initialSyncState, matchContents, matchTrack, TrackMap.empty] using h

/-- C10: a non-smart source playlist with contents but no matches, against an
existing non-smart target with a non-empty id sequence, is classified as an
update: all existing items are removed, an empty sequence is added, and the
record's net delta is negative. -/
theorem C10_no_match_empties_existing_playlist (tm : TrackMap)
    (playlist_map : String → Option PlaylistEntry) (removeFails : String → Bool)
    (st : SyncState) (p : PlaylistObj) (entry : PlaylistEntry)
    (hs : smartListCond p.dj_md_playlist.smart_list = false)
    (hc : hasNoContents p = false)
    (hpm : playlist_map p.combined_name = some entry)
    (hsm : entry.playlist.smart = false)
    (hm : (matchContents tm p.combined_name (p.dj_md_contents.getD [])).1 = [])
    (htid : entry.track_ids = entry.playlist.items.map (fun t => t.ratingKey))
    (hnonempty : entry.track_ids ≠ [])
    (hrf : removeFails p.combined_name = false) :
    (processPlaylist tm playlist_map removeFails st p).actions =
      st.actions ++
        [.removeItems entry.playlist entry.playlist.items,
         .addItems entry.playlist []] ∧
    (processPlaylist tm playlist_map removeFails st p).updated_playlists =
      st.updated_playlists ++
        [⟨p.combined_name, entry.track_ids.length, 0,
          -(entry.track_ids.length : Int)⟩] ∧
    -(entry.track_ids.length : Int) < 0 := by
  have hne : ((matchContents tm p.combined_name (p.dj_md_contents.getD [])).1).map
      (fun t => t.ratingKey) ≠ entry.track_ids := by
    rw [hm]
    simp only [List.map_nil]
    exact fun h => hnonempty h.symm
  have hitems : entry.playlist.items ≠ [] := by
    intro h
    exact hnonempty (by rw [htid, h]; rfl)
  rw [processPlaylist_update_ok tm playlist_map removeFails st p entry
    hs hc hpm hsm hne hrf hitems]
  refine ⟨by rw [hm], ?_, ?_⟩
  · rw [hm]
    simp
  · have : 0 < entry.track_ids.length := List.length_pos.mpr hnonempty
    omega

/-- Witness for C10: the target playlist holds one track, the single source
track matches nothing; a remove-all followed by an empty add is issued and
the update record is ⟨1, 0, −1⟩. -/
theorem C10_no_match_empties_existing_playlist_witness :
    (processPlaylist TrackMap.empty
      (fun k => if k = "X" then
          some ⟨⟨"X", false, [⟨5, "t", []⟩]⟩, [5]⟩ else none)
      (fun _ => false) initialSyncState
      ⟨"X", ⟨some "X", none⟩, some [⟨some "gone.mp3", none, none⟩]⟩).actions =
      [.removeItems ⟨"X", false, [⟨5, "t", []⟩]⟩ [⟨5, "t", []⟩],
       .addItems ⟨"X", false, [⟨5, "t", []⟩]⟩ []] ∧
    (processPlaylist TrackMap.empty
      (fun k => if k = "X" then
          some ⟨⟨"X", false, [⟨5, "t", []⟩]⟩, [5]⟩ else none)
      (fun _ => false) initialSyncState
      ⟨"X", ⟨some "X", none⟩, some [⟨some "gone.mp3", none, none⟩]⟩).updated_playlists =
      [⟨"X", 1, 0, -1⟩] := by
  have h :=
    C10_no_match_empties_existing_playlist TrackMap.empty
      (fun k => if k = "X" then
          some ⟨⟨"X", false, [⟨5, "t", []⟩]⟩, [5]⟩ else none)
      (fun _ => false) initialSyncState
      ⟨"X", ⟨some "X", none⟩, some [⟨some "gone.mp3", none, none⟩]⟩
      ⟨⟨"X", false, [⟨5, "t", []⟩]⟩, [5]⟩
      (by decide) (by decide) (by simp) rfl (by decide) (by decide) (by decide) rfl
  exact ⟨by simpa [initialSyncState] using h.1,
    by simpa [initialSyncState] using h.2.1⟩

/-! ### C1: equality policy of the up-to-date check -/

/-- Track map for the C1 scenario: filenames `a` and `b` map to tracks 1
and 2. -/
def C1tm : TrackMap :=
  ⟨fun k =>
      if k = "a" then some ⟨1, "t1", []⟩
      else if k = "b" then some ⟨2, "t2", []⟩ else none,
   fun _ => none⟩

/-- Existing target playlist for the C1 scenario: same two tracks, opposite
order. -/
def C1target : PlexPlaylist := ⟨"X", false, [⟨2, "t2", []⟩, ⟨1, "t1", []⟩]⟩

/-- Playlist map for the C1 scenario. -/
def C1pm : String → Option PlaylistEntry :=
  fun k => if k = "X" then some ⟨C1target, [2, 1]⟩ else none

/-- Source playlist for the C1 scenario, matching tracks 1 then 2. -/
def C1src : PlaylistObj :=
  ⟨"X", ⟨some "X", none⟩, some [⟨some "a", none, none⟩, ⟨some "b", none, none⟩]⟩

/-- Counterexample to C1: the matched id sequence `[1, 2]` is a permutation
of the stored sequence `[2, 1]` — the same set of track identifiers — yet the
engine does not classify the playlist as up to date: nothing is recorded as
skipped, an update is recorded, and removeItems and addItems mutations are
issued.  The comparison at src/app.py line 297 is order-sensitive list
equality, not set equality. -/
theorem C1_counterexample :
    List.Perm
      (((matchContents C1tm "X" (C1src.dj_md_contents.getD [])).1).map
        (fun t => t.ratingKey))
      [2, 1] ∧
    C1pm "X" = some ⟨C1target, [2, 1]⟩ ∧
    (runSync C1tm C1pm (fun _ => false) [C1src]).skipped_playlists = [] ∧
    (runSync C1tm C1pm (fun _ => false) [C1src]).updated_playlists =
      [⟨"X", 2, 2, 0⟩] ∧
    (runSync C1tm C1pm (fun _ => false) [C1src]).actions =
      [.removeItems C1target [⟨2, "t2", []⟩, ⟨1, "t1", []⟩],
       .addItems C1target [⟨1, "t1", []⟩, ⟨2, "t2", []⟩]] := by
  refine ⟨by decide, by decide, by decide, by decide, by decide⟩

/-- C1 as amended: the no-op classification compares the matched identifier
sequence with the stored identifier sequence by order-sensitive list
equality; only when the two sequences are exactly equal, element for
element, is the playlist recorded as skipped with reason `"Up to date"` and
no mutation issued.  Equal sets in a different order take the update
branch. -/
theorem C1_amended_up_to_date_is_sequence_equality (tm : TrackMap)
    (playlist_map : String → Option PlaylistEntry) (removeFails : String → Bool)
    (st : SyncState) (p : PlaylistObj) (entry : PlaylistEntry)
    (hs : smartListCond p.dj_md_playlist.smart_list = false)
    (hc : hasNoContents p = false)
    (hpm : playlist_map p.combined_name = some entry)
    (hsm : entry.playlist.smart = false)
    (heq : ((matchContents tm p.combined_name (p.dj_md_contents.getD [])).1).map
        (fun t => t.ratingKey) = entry.track_ids) :
    processPlaylist tm playlist_map removeFails st p =
      { st with
        not_found_tracks :=
          st.not_found_tracks ++
            (matchContents tm p.combined_name (p.dj_md_contents.getD [])).2
        skipped_playlists :=
          st.skipped_playlists ++
            [⟨p.combined_name,
              some (matchContents tm p.combined_name (p.dj_md_contents.getD [])).1.length,
              "Up to date"⟩] } :=
  processPlaylist_up_to_date tm playlist_map removeFails st p entry hs hc hpm hsm heq

/-- Witness for the amended C1: same two tracks in the same order — the
playlist is recorded as skipped with reason `"Up to date"` and no action is
issued. -/
theorem C1_amended_up_to_date_is_sequence_equality_witness :
    processPlaylist C1tm
      (fun k => if k = "X" then some ⟨⟨"X", false, [⟨1, "t1", []⟩, ⟨2, "t2", []⟩]⟩, [1, 2]⟩
        else none)
      (fun _ => false) initialSyncState C1src =
      { initialSyncState with
        skipped_playlists := [⟨"X", some 2, "Up to date"⟩] } := by
  have h :=
    C1_amended_up_to_date_is_sequence_equality C1tm
      (fun k => if k = "X" then some ⟨⟨"X", false, [⟨1, "t1", []⟩, ⟨2, "t2", []⟩]⟩, [1, 2]⟩
        else none)
      (fun _ => false) initialSyncState C1src
      ⟨⟨"X", false, [⟨1, "t1", []⟩, ⟨2, "t2", []⟩]⟩, [1, 2]⟩
      (by decide) (by decide) (by simp [C1src]) rfl (by decide)
  simpa [initialSyncState, C1src, C1tm, matchContents, matchTrack] using h

/-! ### C2: smart target playlists -/

/-- Any action a single loop iteration adds to the trace either targets no
existing playlist (a create) or targets a non-smart playlist: the mutation
branch is guarded by the smart check at src/app.py line 291. -/
lemma processPlaylist_action_new_target (tm : TrackMap)
    (playlist_map : String → Option PlaylistEntry) (removeFails : String → Bool)
    (st : SyncState) (p : PlaylistObj) (a : PlexAction)
    (ha : a ∈ (processPlaylist tm playlist_map removeFails st p).actions) :
    a ∈ st.actions ∨ ∀ tgt, actionTarget a = some tgt → tgt.smart = false := by
  by_cases hs : smartListCond p.dj_md_playlist.smart_list
  · rw [processPlaylist_smart_skip tm playlist_map removeFails st p hs] at ha
    exact Or.inl ha
  · replace hs : smartListCond p.dj_md_playlist.smart_list = false := by simpa using hs
    by_cases hc : hasNoContents p
    · rw [processPlaylist_no_tracks tm playlist_map removeFails st p hs hc] at ha
      exact Or.inl ha
    · replace hc : hasNoContents p = false := by simpa using hc
      cases hpm : playlist_map p.combined_name with
      | none =>
        rw [processPlaylist_create tm playlist_map removeFails st p hs hc hpm] at ha
        simp only [List.mem_append, List.mem_singleton] at ha
        rcases ha with ha | rfl
        · exact Or.inl ha
        · refine Or.inr fun tgt h => ?_
          simp [actionTarget] at h
      | some entry =>
        by_cases hsm : entry.playlist.smart
        · rw [processPlaylist_smart_target tm playlist_map removeFails st p entry
            hs hc hpm hsm] at ha
          exact Or.inl ha
        · replace hsm : entry.playlist.smart = false := by simpa using hsm
          by_cases heq : ((matchContents tm p.combined_name (p.dj_md_contents.getD [])).1).map
              (fun t => t.ratingKey) = entry.track_ids
          · rw [processPlaylist_up_to_date tm playlist_map removeFails st p entry
              hs hc hpm hsm heq] at ha
            exact Or.inl ha
          · by_cases hrf : removeFails p.combined_name
            · rw [processPlaylist_update_removeFails tm playlist_map removeFails st p entry
                hs hc hpm hsm heq hrf] at ha
              simp only [List.mem_append, List.mem_singleton] at ha
              rcases ha with ha | rfl
              · exact Or.inl ha
              · refine Or.inr fun tgt h => ?_
                simp only [actionTarget, Option.some.injEq] at h
                rw [← h]
                exact hsm
            · replace hrf : removeFails p.combined_name = false := by simpa using hrf
              by_cases hitems : entry.playlist.items = []
              · rw [processPlaylist_update_empty_items tm playlist_map removeFails st p entry
                  hs hc hpm hsm heq hitems] at ha
                simp only [List.mem_append, List.mem_singleton] at ha
                rcases ha with ha | rfl
                · exact Or.inl ha
                · refine Or.inr fun tgt h => ?_
                  simp only [actionTarget, Option.some.injEq] at h
                  rw [← h]
                  exact hsm
              · rw [processPlaylist_update_ok tm playlist_map removeFails st p entry
                  hs hc hpm hsm heq hrf hitems] at ha
                simp only [List.mem_append, List.mem_cons, List.mem_singleton,
                  List.not_mem_nil, or_false] at ha
                rcases ha with ha | rfl | rfl
                · exact Or.inl ha
                · refine Or.inr fun tgt h => ?_
                  simp only [actionTarget, Option.some.injEq] at h
                  rw [← h]
                  exact hsm
                · refine Or.inr fun tgt h => ?_
                  simp only [actionTarget, Option.some.injEq] at h
                  rw [← h]
                  exact hsm

/-- Fold version of `processPlaylist_action_new_target`. -/
lemma runSync_actions_target_aux (tm : TrackMap)
    (playlist_map : String → Option PlaylistEntry) (removeFails : String → Bool) :
    ∀ (pls : List PlaylistObj) (st : SyncState) (a : PlexAction),
      a ∈ (pls.foldl (processPlaylist tm playlist_map removeFails) st).actions →
      a ∈ st.actions ∨ ∀ tgt, actionTarget a = some tgt → tgt.smart = false := by
  intro pls
  induction pls with
  | nil => intro st a ha; exact Or.inl ha
  | cons p ps ih =>
    intro st a ha
    simp only [List.foldl_cons] at ha
    rcases ih _ a ha with h | h
    · exact processPlaylist_action_new_target tm playlist_map removeFails st p a h
    · exact Or.inr h

lemma build_plex_playlist_map_aux (title : String) :
    ∀ (pls : List PlexPlaylist) (m : String → Option PlaylistEntry),
      (∀ pl ∈ pls, pl.title = title → pl.smart = true) → m title = none →
      (pls.foldl (fun m pl => indexPlexPlaylist pl m) m) title = none := by
  intro pls
  induction pls with
  | nil => intro m _ hm; exact hm
  | cons pl ps ih =>
    intro m h hm
    simp only [List.foldl_cons]
    apply ih
    · intro q hq hq2
      exact h q (List.mem_cons_of_mem _ hq) hq2
    · unfold indexPlexPlaylist
      by_cases hsm : pl.smart
      · simpa [hsm] using hm
      · have hne : pl.title ≠ title := fun e =>
          absurd (h pl (List.mem_cons_self _ _) e) (by simpa using hsm)
        simp only [hsm, Bool.false_eq_true, if_false, dictInsert]
        rw [if_neg fun e => hne e.symm]
        exact hm

/-- The playlist index never holds an entry under a title all of whose
Plex playlists are smart: `_index_plex_playlist` skips smart playlists. -/
lemma build_plex_playlist_map_none_of_all_smart (pls : List PlexPlaylist)
    (title : String) (h : ∀ pl ∈ pls, pl.title = title → pl.smart = true) :
    build_plex_playlist_map pls title = none :=
  build_plex_playlist_map_aux title pls (fun _ => none) h rfl

/-- Plex playlists for the C2 scenario: a single smart playlist named `A`. -/
def C2plex : List PlexPlaylist := [⟨"A", true, [⟨5, "x", []⟩]⟩]

/-- Track map for the C2 scenario: filename `f` maps to track 1. -/
def C2tm : TrackMap :=
  ⟨fun k => if k = "f" then some ⟨1, "t", []⟩ else none, fun _ => none⟩

/-- Non-smart source playlist named `A` for the C2 scenario. -/
def C2src : PlaylistObj :=
  ⟨"A", ⟨some "A", none⟩, some [⟨some "f", none, none⟩]⟩

/-- Counterexample to C2: an existing smart target playlist named `A` and a
non-smart source playlist with the same combined name.  The reconciler does
NOT take the smart-skip branch: smart playlists are excluded from the
playlist index at build time (src/app.py line 156), so the lookup misses and
the create branch runs, creating a new playlist. -/
theorem C2_counterexample :
    (⟨"A", true, [⟨5, "x", []⟩]⟩ : PlexPlaylist) ∈ C2plex ∧
    (runSync C2tm (build_plex_playlist_map C2plex) (fun _ => false)
        [C2src]).smart_playlists_skipped = [] ∧
    (runSync C2tm (build_plex_playlist_map C2plex) (fun _ => false)
        [C2src]).actions = [.createPlaylist "A" [⟨1, "t", []⟩]] ∧
    (runSync C2tm (build_plex_playlist_map C2plex) (fun _ => false)
        [C2src]).created_playlists = [⟨"A", 1⟩] := by
  exact ⟨by decide, by decide, by decide, by decide⟩

/-- C2 as amended: (1) the engine never issues a removeItems or addItems
mutation whose target playlist is smart — every mutation in the trace
targets a non-smart playlist; (2) when every existing Plex playlist with the
source's combined name is smart, the name is missing from the playlist index
and a non-smart, non-empty source playlist takes the create branch (a new
playlist is created), not the smart-skip branch. -/
theorem C2_amended_smart_targets_never_mutated :
    (∀ (tm : TrackMap) (playlist_map : String → Option PlaylistEntry)
        (removeFails : String → Bool) (pl : List PlaylistObj) (a : PlexAction)
        (tgt : PlexPlaylist),
        a ∈ (runSync tm playlist_map removeFails pl).actions →
        actionTarget a = some tgt → tgt.smart = false) ∧
    (∀ (tm : TrackMap) (playlists : List PlexPlaylist) (removeFails : String → Bool)
        (st : SyncState) (p : PlaylistObj),
        smartListCond p.dj_md_playlist.smart_list = false →
        hasNoContents p = false →
        (∀ pl ∈ playlists, pl.title = p.combined_name → pl.smart = true) →
        processPlaylist tm (build_plex_playlist_map playlists) removeFails st p =
          { st with
            not_found_tracks :=
              st.not_found_tracks ++
                (matchContents tm p.combined_name (p.dj_md_contents.getD [])).2
            actions :=
              st.actions ++
                [.createPlaylist p.combined_name
                  (matchContents tm p.combined_name (p.dj_md_contents.getD [])).1]
            created_playlists :=
              st.created_playlists ++
                [⟨p.combined_name,
                  (matchContents tm p.combined_name (p.dj_md_contents.getD [])).1.length⟩] }) := by
  constructor
  · intro tm playlist_map removeFails pl a tgt ha htgt
    simp only [runSync] at ha
    rcases runSync_actions_target_aux tm playlist_map removeFails pl initialSyncState a ha with
      h | h
    · simp [initialSyncState] at h
    · exact h tgt htgt
  · intro tm playlists removeFails st p hs hc hall
    exact processPlaylist_create tm _ removeFails st p hs hc
      (build_plex_playlist_map_none_of_all_smart playlists p.combined_name hall)

/-- Witness for the amended C2: a concrete run that issues an addItems
mutation; the theorem yields that its target is not smart. -/
theorem C2_amended_smart_targets_never_mutated_witness :
    (⟨"X", false, [⟨5, "t", []⟩]⟩ : PlexPlaylist).smart = false :=
  C2_amended_smart_targets_never_mutated.1 TrackMap.empty
    (fun k => if k = "X" then some ⟨⟨"X", false, [⟨5, "t", []⟩]⟩, [5]⟩ else none)
    (fun _ => false)
    [⟨"X", ⟨some "X", none⟩, some [⟨some "gone.mp3", none, none⟩]⟩]
    (.addItems ⟨"X", false, [⟨5, "t", []⟩]⟩ [])
    ⟨"X", false, [⟨5, "t", []⟩]⟩
    (by decide) rfl

/-! ### C4: idempotence of reconciliation -/

/-- A loop iteration never removes records from the skipped list. -/
lemma processPlaylist_skipped_mono (tm : TrackMap)
    (playlist_map : String → Option PlaylistEntry) (removeFails : String → Bool)
    (st : SyncState) (p : PlaylistObj) (x : SkippedRecord)
    (hx : x ∈ st.skipped_playlists) :
    x ∈ (processPlaylist tm playlist_map removeFails st p).skipped_playlists := by
  by_cases hs : smartListCond p.dj_md_playlist.smart_list
  · rw [processPlaylist_smart_skip tm playlist_map removeFails st p hs]
    exact hx
  · replace hs : smartListCond p.dj_md_playlist.smart_list = false := by simpa using hs
    by_cases hc : hasNoContents p
    · rw [processPlaylist_no_tracks tm playlist_map removeFails st p hs hc]
      exact List.mem_append_left _ hx
    · replace hc : hasNoContents p = false := by simpa using hc
      cases hpm : playlist_map p.combined_name with
      | none =>
        rw [processPlaylist_create tm playlist_map removeFails st p hs hc hpm]
        exact hx
      | some entry =>
        by_cases hsm : entry.playlist.smart
        · rw [processPlaylist_smart_target tm playlist_map removeFails st p entry
            hs hc hpm hsm]
          exact hx
        · replace hsm : entry.playlist.smart = false := by simpa using hsm
          by_cases heq : ((matchContents tm p.combined_name (p.dj_md_contents.getD [])).1).map
              (fun t => t.ratingKey) = entry.track_ids
          · rw [processPlaylist_up_to_date tm playlist_map removeFails st p entry
              hs hc hpm hsm heq]
            exact List.mem_append_left _ hx
          · by_cases hrf : removeFails p.combined_name
            · rw [processPlaylist_update_removeFails tm playlist_map removeFails st p entry
                hs hc hpm hsm heq hrf]
              exact hx
            · replace hrf : removeFails p.combined_name = false := by simpa using hrf
              by_cases hitems : entry.playlist.items = []
              · rw [processPlaylist_update_empty_items tm playlist_map removeFails st p entry
                  hs hc hpm hsm heq hitems]
                exact hx
              · rw [processPlaylist_update_ok tm playlist_map removeFails st p entry
                  hs hc hpm hsm heq hrf hitems]
                exact hx

/-- Fold version of `processPlaylist_skipped_mono`. -/
lemma runSync_skipped_mono (tm : TrackMap)
    (playlist_map : String → Option PlaylistEntry) (removeFails : String → Bool) :
    ∀ (pls : List PlaylistObj) (st : SyncState) (x : SkippedRecord),
      x ∈ st.skipped_playlists →
      x ∈ (pls.foldl (processPlaylist tm playlist_map removeFails) st).skipped_playlists := by
  intro pls
  induction pls with
  | nil => intro st x hx; exact hx
  | cons p ps ih =>
    intro st x hx
    simp only [List.foldl_cons]
    exact ih _ x (processPlaylist_skipped_mono tm playlist_map removeFails st p x hx)

/-- The record appended for an up-to-date playlist. -/
def upToDateRecord (tm : TrackMap) (p : PlaylistObj) : SkippedRecord :=
  ⟨p.combined_name,
   some (matchContents tm p.combined_name (p.dj_md_contents.getD [])).1.length,
   "Up to date"⟩

/-- Invariant of the sync fold when every non-smart, non-empty source
playlist already matches its index entry exactly. -/
lemma runSync_noop_aux (tm : TrackMap)
    (playlist_map : String → Option PlaylistEntry) (removeFails : String → Bool) :
    ∀ (pls : List PlaylistObj) (st : SyncState),
      (∀ p ∈ pls, smartListCond p.dj_md_playlist.smart_list = false →
        hasNoContents p = false →
        ∃ entry, playlist_map p.combined_name = some entry ∧
          entry.playlist.smart = false ∧
          ((matchContents tm p.combined_name (p.dj_md_contents.getD [])).1).map
            (fun t => t.ratingKey) = entry.track_ids) →
      ((pls.foldl (processPlaylist tm playlist_map removeFails) st).created_playlists =
          st.created_playlists ∧
        (pls.foldl (processPlaylist tm playlist_map removeFails) st).updated_playlists =
          st.updated_playlists ∧
        (pls.foldl (processPlaylist tm playlist_map removeFails) st).actions = st.actions) ∧
      ∀ p ∈ pls, smartListCond p.dj_md_playlist.smart_list = false →
        hasNoContents p = false →
        upToDateRecord tm p ∈
          (pls.foldl (processPlaylist tm playlist_map removeFails) st).skipped_playlists := by
  intro pls
  induction pls with
  | nil =>
    intro st _
    exact ⟨⟨rfl, rfl, rfl⟩, by simp⟩
  | cons p ps ih =>
    intro st h
    simp only [List.foldl_cons]
    by_cases hs : smartListCond p.dj_md_playlist.smart_list
    · rw [processPlaylist_smart_skip tm playlist_map removeFails st p hs]
      obtain ⟨h1, h2⟩ := ih _ (fun q hq => h q (List.mem_cons_of_mem _ hq))
      refine ⟨by simpa using h1, ?_⟩
      intro q hq hqs hqc
      rcases List.mem_cons.mp hq with rfl | hq'
      · rw [hs] at hqs; cases hqs
      · exact h2 q hq' hqs hqc
    · replace hs : smartListCond p.dj_md_playlist.smart_list = false := by simpa using hs
      by_cases hc : hasNoContents p
      · rw [processPlaylist_no_tracks tm playlist_map removeFails st p hs hc]
        obtain ⟨h1, h2⟩ := ih _ (fun q hq => h q (List.mem_cons_of_mem _ hq))
        refine ⟨by simpa using h1, ?_⟩
        intro q hq hqs hqc
        rcases List.mem_cons.mp hq with rfl | hq'
        · rw [hc] at hqc; cases hqc
        · exact h2 q hq' hqs hqc
      · replace hc : hasNoContents p = false := by simpa using hc
        obtain ⟨entry, hpm, hsm, heq⟩ := h p (List.mem_cons_self _ _) hs hc
        rw [processPlaylist_up_to_date tm playlist_map removeFails st p entry
          hs hc hpm hsm heq]
        obtain ⟨h1, h2⟩ := ih _ (fun q hq => h q (List.mem_cons_of_mem _ hq))
        refine ⟨by simpa using h1, ?_⟩
        intro q hq hqs hqc
        rcases List.mem_cons.mp hq with rfl | hq'
        · apply runSync_skipped_mono
          simp [upToDateRecord]
        · exact h2 q hq' hqs hqc

/-- C4: when, as after a completed first run, every non-smart, non-empty
source playlist's index entry is non-smart and its stored id sequence equals
the matched id sequence, a run performs no create and no update: the trace
of mutations is empty, the created and updated lists are empty, and every
non-smart, non-empty source playlist is recorded as skipped with reason
`"Up to date"`. -/
theorem C4_second_run_is_noop (tm : TrackMap)
    (playlist_map : String → Option PlaylistEntry) (removeFails : String → Bool)
    (pl : List PlaylistObj)
    (h : ∀ p ∈ pl, smartListCond p.dj_md_playlist.smart_list = false →
      hasNoContents p = false →
      ∃ entry, playlist_map p.combined_name = some entry ∧
        entry.playlist.smart = false ∧
        ((matchContents tm p.combined_name (p.dj_md_contents.getD [])).1).map
          (fun t => t.ratingKey) = entry.track_ids) :
    ((runSync tm playlist_map removeFails pl).created_playlists = [] ∧
      (runSync tm playlist_map removeFails pl).updated_playlists = [] ∧
      (runSync tm playlist_map removeFails pl).actions = []) ∧
    ∀ p ∈ pl, smartListCond p.dj_md_playlist.smart_list = false →
      hasNoContents p = false →
      upToDateRecord tm p ∈ (runSync tm playlist_map removeFails pl).skipped_playlists := by
  simp only [runSync]
  exact runSync_noop_aux tm playlist_map removeFails pl initialSyncState h

/-- Witness for C4: one source playlist whose index entry already equals the
matched sequence; the run records it as up to date and issues nothing. -/
theorem C4_second_run_is_noop_witness :
    ((runSync
        ⟨fun k => if k = "a" then some ⟨1, "t1", []⟩ else none, fun _ => none⟩
        (fun k => if k = "X" then some ⟨⟨"X", false, [⟨1, "t1", []⟩]⟩, [1]⟩ else none)
        (fun _ => false)
        [⟨"X", ⟨some "X", none⟩, some [⟨some "a", none, none⟩]⟩]).created_playlists = [] ∧
      (runSync
        ⟨fun k => if k = "a" then some ⟨1, "t1", []⟩ else none, fun _ => none⟩
        (fun k => if k = "X" then some ⟨⟨"X", false, [⟨1, "t1", []⟩]⟩, [1]⟩ else none)
        (fun _ => false)
        [⟨"X", ⟨some "X", none⟩, some [⟨some "a", none, none⟩]⟩]).updated_playlists = [] ∧
      (runSync
        ⟨fun k => if k = "a" then some ⟨1, "t1", []⟩ else none, fun _ => none⟩
        (fun k => if k = "X" then some ⟨⟨"X", false, [⟨1, "t1", []⟩]⟩, [1]⟩ else none)
        (fun _ => false)
        [⟨"X", ⟨some "X", none⟩, some [⟨some "a", none, none⟩]⟩]).actions = []) ∧
    (⟨"X", some 1, "Up to date"⟩ : SkippedRecord) ∈
      (runSync
        ⟨fun k => if k = "a" then some ⟨1, "t1", []⟩ else none, fun _ => none⟩
        (fun k => if k = "X" then some ⟨⟨"X", false, [⟨1, "t1", []⟩]⟩, [1]⟩ else none)
        (fun _ => false)
        [⟨"X", ⟨some "X", none⟩, some [⟨some "a", none, none⟩]⟩]).skipped_playlists := by
  have h :=
    C4_second_run_is_noop
      ⟨fun k => if k = "a" then some ⟨1, "t1", []⟩ else none, fun _ => none⟩
      (fun k => if k = "X" then some ⟨⟨"X", false, [⟨1, "t1", []⟩]⟩, [1]⟩ else none)
      (fun _ => false)
      [⟨"X", ⟨some "X", none⟩, some [⟨some "a", none, none⟩]⟩]
      (by
        intro p hp hps hpc
        simp only [List.mem_singleton] at hp
        subst hp
        exact ⟨⟨⟨"X", false, [⟨1, "t1", []⟩]⟩, [1]⟩, rfl, rfl, by decide⟩)
  refine ⟨h.1, ?_⟩
  have h2 := h.2 ⟨"X", ⟨some "X", none⟩, some [⟨some "a", none, none⟩]⟩
    (List.mem_singleton.mpr rfl) (by decide) (by decide)
  simpa [upToDateRecord] using h2

/-! ### C9: characterization of the track index -/

lemma find?_append_eq {α : Type} (p : α → Bool) (l₁ l₂ : List α) :
    (l₁ ++ l₂).find? p =
      match l₁.find? p with
      | some a => some a
      | none => l₂.find? p := by
  induction l₁ with
  | nil => simp
  | cons a as ih =>
    by_cases h : p a
    · simp [h]
    · simp [h, ih]

/-- The fold over one media item's parts files the track under the base name
of every part, and touches nothing else of `by_filename`. -/
lemma foldParts_by_filename (track : PlexTrack) (ps : List PlexPart)
    (m : TrackMap) (k : String) :
    ((ps.foldl
        (fun acc2 part =>
          { acc2 with
            by_filename := dictInsert (basename part.file) track acc2.by_filename })
        m).by_filename) k =
      if k ∈ ps.map (fun part => basename part.file) then some track
      else m.by_filename k := by
  induction ps generalizing m with
  | nil => simp
  | cons part rest ih =>
    simp only [List.foldl_cons, ih, List.map_cons, List.mem_cons]
    by_cases h1 : k ∈ rest.map (fun part => basename part.file)
    · simp [h1]
    · by_cases h2 : k = basename part.file
      · simp [h1, h2, dictInsert]
      · simp [h1, h2, dictInsert]

/-- The parts fold leaves `by_title` unchanged. -/
lemma foldParts_by_title (track : PlexTrack) (ps : List PlexPart) (m : TrackMap) :
    ((ps.foldl
        (fun acc2 part =>
          { acc2 with
            by_filename := dictInsert (basename part.file) track acc2.by_filename })
        m).by_title) = m.by_title := by
  induction ps generalizing m with
  | nil => rfl
  | cons part rest ih => simp [List.foldl_cons, ih]

/-- The fold over all media items files the track under every part base name. -/
lemma foldMedia_by_filename (track : PlexTrack) (ms : List PlexMedia)
    (m : TrackMap) (k : String) :
    ((ms.foldl
        (fun acc md =>
          md.parts.foldl
            (fun acc2 part =>
              { acc2 with
                by_filename := dictInsert (basename part.file) track acc2.by_filename })
            acc)
        m).by_filename) k =
      if k ∈ (ms.map (fun md => md.parts.map (fun part => basename part.file))).flatten
      then some track
      else m.by_filename k := by
  induction ms generalizing m with
  | nil => simp
  | cons md rest ih =>
    simp only [List.foldl_cons, ih, List.map_cons, List.flatten_cons, List.mem_append]
    by_cases h1 : k ∈ (rest.map (fun md => md.parts.map (fun part => basename part.file))).flatten
    · simp [h1]
    · by_cases h2 : k ∈ md.parts.map (fun part => basename part.file)
      · simp [h1, h2, foldParts_by_filename]
      · simp [h1, h2, foldParts_by_filename]

/-- The media fold leaves `by_title` unchanged. -/
lemma foldMedia_by_title (track : PlexTrack) (ms : List PlexMedia) (m : TrackMap) :
    ((ms.foldl
        (fun acc md =>
          md.parts.foldl
            (fun acc2 part =>
              { acc2 with
                by_filename := dictInsert (basename part.file) track acc2.by_filename })
            acc)
        m).by_title) = m.by_title := by
  induction ms generalizing m with
  | nil => rfl
  | cons md rest ih => simp [List.foldl_cons, ih, foldParts_by_title]

/-- Effect of `_index_plex_track` on a `by_filename` lookup: the track is
found under each of its part base names, everything else is unchanged. -/
lemma indexPlexTrack_by_filename (t : PlexTrack) (m : TrackMap) (k : String) :
    (indexPlexTrack t m).by_filename k =
      if k ∈ partBasenames t then some t else m.by_filename k := by
  unfold indexPlexTrack partBasenames
  by_cases hemp : t.media.isEmpty
  · have : t.media = [] := by
      cases h : t.media
      · rfl
      · rw [h] at hemp; cases hemp
    by_cases ht : t.title = "" <;> simp [hemp, ht, this]
  · by_cases ht : t.title = "" <;>
      simp [hemp, ht, foldMedia_by_filename]

/-- Effect of `_index_plex_track` on a `by_title` lookup: the track is found
under its lowercased title when the title is non-empty, everything else is
unchanged. -/
lemma indexPlexTrack_by_title (t : PlexTrack) (m : TrackMap) (k : String) :
    (indexPlexTrack t m).by_title k =
      if titleKey t = some k then some t else m.by_title k := by
  unfold indexPlexTrack titleKey
  by_cases ht : t.title = ""
  · by_cases hemp : t.media.isEmpty <;> simp [ht, hemp, foldMedia_by_title]
  · by_cases hemp : t.media.isEmpty <;>
      by_cases hk : k = t.title.toLower
    · simp [ht, hemp, hk, dictInsert]
    · simp only [ht, hemp, dictInsert, hk, if_true, if_false, Bool.false_eq_true,
        ite_false, ite_true]
      simp [hk]
      rw [if_neg fun h => hk h.symm]
    · simp [ht, hemp, hk, dictInsert, foldMedia_by_title]
    · simp [ht, hemp, dictInsert, foldMedia_by_title, hk]
      rw [if_neg fun h => hk h.symm]

/-- Folding `_index_plex_track` over a track list: a `by_filename` lookup
returns the last track of the list carrying that part base name, else falls
through to the initial map. -/
lemma foldTracks_by_filename (ts : List PlexTrack) (m : TrackMap) (k : String) :
    ((ts.foldl (fun acc t => indexPlexTrack t acc) m).by_filename) k =
      match ts.reverse.find? (fun t => decide (k ∈ partBasenames t)) with
      | some t => some t
      | none => m.by_filename k := by
  induction ts generalizing m with
  | nil => simp
  | cons t rest ih =>
    simp only [List.foldl_cons, ih, List.reverse_cons, find?_append_eq]
    cases h : rest.reverse.find? (fun t => decide (k ∈ partBasenames t)) with
    | some u => rfl
    | none =>
      by_cases hk : k ∈ partBasenames t
      · simp [indexPlexTrack_by_filename, hk]
      · simp [indexPlexTrack_by_filename, hk]

/-- Folding `_index_plex_track` over a track list: a `by_title` lookup
returns the last track of the list whose title key is the looked-up key. -/
lemma foldTracks_by_title (ts : List PlexTrack) (m : TrackMap) (k : String) :
    ((ts.foldl (fun acc t => indexPlexTrack t acc) m).by_title) k =
      match ts.reverse.find? (fun t => titleKey t == some k) with
      | some t => some t
      | none => m.by_title k := by
  induction ts generalizing m with
  | nil => simp
  | cons t rest ih =>
    simp only [List.foldl_cons, ih, List.reverse_cons, find?_append_eq]
    cases h : rest.reverse.find? (fun t => titleKey t == some k) with
    | some u => rfl
    | none =>
      by_cases hk : titleKey t = some k
      · simp [indexPlexTrack_by_title, hk]
      · simp [indexPlexTrack_by_title, hk]

/-- Unfolding: `build_plex_track_map` is the fold of `_index_plex_track` over the tracks
of the `'artist'` sections, in catalog order. -/
lemma build_plex_track_map_eq_foldl (sections : List PlexSection) :
    ∀ m : TrackMap,
      sections.foldl
        (fun m s =>
          if s.type = "artist" then s.tracks.foldl (fun acc t => indexPlexTrack t acc) m
          else m)
        m =
      (musicTracks sections).foldl (fun acc t => indexPlexTrack t acc) m := by
  induction sections with
  | nil => intro m; rfl
  | cons s rest ih =>
    intro m
    by_cases hs : s.type = "artist"
    · simp [List.foldl_cons, hs, musicTracks, List.filter_cons, ih, List.foldl_append]
    · simp [List.foldl_cons, hs, musicTracks, List.filter_cons, ih]

/-- C9: full characterization of the built track index.  A `by_filename`
lookup of key `k` returns the last track, in catalog iteration order over
the music sections, having a media part whose base name is `k` (last insert
wins); a `by_title` lookup returns the last track whose non-empty title
lowercases to `k`.  Tracks with no parts or no title simply never satisfy
the respective predicate — they are absent and no error arises. -/
theorem C9_track_index_characterization (sections : List PlexSection) (k : String) :
    (build_plex_track_map sections).by_filename k =
      (musicTracks sections).reverse.find? (fun t => decide (k ∈ partBasenames t)) ∧
    (build_plex_track_map sections).by_title k =
      (musicTracks sections).reverse.find? (fun t => titleKey t == some k) := by
  constructor
  · rw [build_plex_track_map, build_plex_track_map_eq_foldl, foldTracks_by_filename]
    cases (musicTracks sections).reverse.find? (fun t => decide (k ∈ partBasenames t)) with
    | some t => rfl
    | none => rfl
  · rw [build_plex_track_map, build_plex_track_map_eq_foldl, foldTracks_by_title]
    cases (musicTracks sections).reverse.find? (fun t => titleKey t == some k) with
    | some t => rfl
    | none => rfl

end RekordboxSync
